import Mathlib

/-!
Shallow embedding of the Import-Export-to-BugHerd backend
(`src/server.js`, `src/generator.js`, `src/brand-generator.js`)
and proofs about its documented behaviour.

JavaScript strings are modelled as Lean `String`; fields that may be
absent (`undefined`/`null`) are modelled as `Option`; JS truthiness on
strings (`""` is falsy) is made explicit via `jsOr`/`jsTruthy`; numeric
identifiers coming from JSON are modelled as `Int`.  Network calls are
modelled as oracle functions passed in as parameters; thrown JS
exceptions around such calls are modelled with `Except`.
-/

namespace BugHerd

/-- JS `a || b` for an optional string `a`: `undefined`, `null` and the
empty string are falsy and fall through to the default. -/
def jsOr (o : Option String) (d : String) : String :=
  match o with
  | none => d
  | some s => if s = "" then d else s

/-- JS truthiness of an optional string (`undefined`/`null`/`""` are falsy). -/
def jsTruthy (o : Option String) : Bool :=
  match o with
  | none => false
  | some s => s ≠ ""

/-- JS `String.prototype.toLowerCase`, restricted to the simple
per-character mapping (ASCII-faithful). -/
def lowerStr (s : String) : String :=
  ⟨s.data.map Char.toLower⟩

/-- JS whitespace (`\s`), restricted to its ASCII members: space, tab,
line feed, carriage return, vertical tab, form feed. -/
def isJsWs (c : Char) : Bool :=
  c == ' ' || c == '\t' || c == '\n' || c == '\r' ||
    c == Char.ofNat 11 || c == Char.ofNat 12

/-- JS `String.prototype.trim`: strip leading and trailing whitespace. -/
def jsTrim (s : String) : String :=
  ⟨((s.data.dropWhile isJsWs).reverse.dropWhile isJsWs).reverse⟩

/-- `getValue` from `src/server.js` (export route), string case:
`String(value).trim()` with `null`/`undefined` mapped to `''`. -/
def getValue (o : Option String) : String :=
  jsTrim (o.getD "")

/-- Char-list version of JS `String.prototype.includes` (substring test):
`isPre n h` is the prefix test, `infixList n h` scans every suffix. -/
def isPre : List Char → List Char → Bool
  | [], _ => true
  | _ :: _, [] => false
  | a :: as, b :: bs => a == b && isPre as bs

/-- Substring occurrence test on char lists (see `isPre`). -/
def infixList (n : List Char) : List Char → Bool
  | [] => isPre n []
  | b :: bs => isPre n (b :: bs) || infixList n bs

/-- JS `hay.includes(needle)` for strings. -/
def containsSub (needle hay : String) : Bool :=
  infixList needle.data hay.data

/-! ## CSV escaping (`escapeCsv`, `src/server.js` lines 988-1005)

The source helper first stringifies non-string cells (arrays joined by
`', '`, objects JSON-encoded); the escaping itself operates on the
resulting string, which is what is embedded here. -/

/-- The test `/[,\n"]/.test(value)`: does the value contain a comma,
a newline or a double quote? -/
def needsQuote (s : String) : Bool :=
  s.data.any (fun c => c == ',' || c == '\n' || c == '"')

/-- `value.replace(/"/g, '""')`: double every double quote. -/
def doubleQuotes : List Char → List Char
  | [] => []
  | c :: cs => if c = '"' then '"' :: '"' :: doubleQuotes cs else c :: doubleQuotes cs

/-- `escapeCsv` from `src/server.js` (string case): wrap in quotes and
double embedded quotes exactly when the value contains `,`, `"` or `\n`. -/
def escapeCsv (value : String) : String :=
  if needsQuote value then "\"" ++ ⟨doubleQuotes value.data⟩ ++ "\"" else value

/-- Standard CSV unescaping (the inverse direction named by the spec's
round-trip property): if the field is quote-wrapped, drop the outer
quotes and halve every doubled quote; otherwise return it unchanged. -/
def undoubleQuotes : List Char → List Char
  | [] => []
  | [c] => [c]
  | c1 :: c2 :: rest =>
    if c1 = '"' ∧ c2 = '"' then '"' :: undoubleQuotes rest
    else c1 :: undoubleQuotes (c2 :: rest)
termination_by l => l.length

/-- Standard CSV unescaping of a single field (see `undoubleQuotes`). -/
def unescapeCsv (s : String) : String :=
  if s.data.head? = some '"' ∧ s.data.getLast? = some '"' ∧ 2 ≤ s.data.length
  then ⟨undoubleQuotes (s.data.drop 1).dropLast⟩ else s

theorem undoubleQuotes_doubleQuotes (l : List Char) :
    undoubleQuotes (doubleQuotes l) = l := by
  induction l with
  | nil => simp [doubleQuotes, undoubleQuotes]
  | cons c cs ih =>
    by_cases hc : c = '"'
    · subst hc
      simp only [doubleQuotes, if_pos rfl, undoubleQuotes, and_self, if_pos, ih]
    · simp only [doubleQuotes, if_neg hc]
      cases h : doubleQuotes cs with
      | nil =>
        cases cs with
        | nil => simp [undoubleQuotes]
        | cons d ds => simp [doubleQuotes] at h; split at h <;> simp_all
      | cons d ds =>
        have hstep : undoubleQuotes (c :: d :: ds) = c :: undoubleQuotes (d :: ds) := by
          simp only [undoubleQuotes]
          rw [if_neg]
          intro hcon
          exact hc hcon.1
        rw [hstep, ← h, ih]

theorem length_le_doubleQuotes (l : List Char) :
    l.length ≤ (doubleQuotes l).length := by
  induction l with
  | nil => simp [doubleQuotes]
  | cons c cs ih =>
    simp only [doubleQuotes]
    split <;> simp <;> omega

theorem escapeCsv_data_of_needsQuote (v : String) (h : needsQuote v = true) :
    (escapeCsv v).data = ('"' :: doubleQuotes v.data) ++ ['"'] := by
  simp [escapeCsv, h, String.data_append]

theorem unescape_escape (v : String) : unescapeCsv (escapeCsv v) = v := by
  by_cases h : needsQuote v
  · have hdata := escapeCsv_data_of_needsQuote v h
    rw [unescapeCsv, hdata]
    rw [if_pos]
    · have h1 : (('"' :: doubleQuotes v.data) ++ ['"']).drop 1 =
          doubleQuotes v.data ++ ['"'] := by simp
      rw [h1, List.dropLast_concat, undoubleQuotes_doubleQuotes]
    · exact ⟨by simp, List.getLast?_concat _, by simp⟩
  · have hv : escapeCsv v = v := by simp [escapeCsv, h]
    rw [hv, unescapeCsv]
    rw [if_neg]
    rintro ⟨hhead, -, -⟩
    cases hd : v.data with
    | nil => rw [hd] at hhead; simp at hhead
    | cons c cs =>
      rw [hd] at hhead
      simp only [List.head?_cons, Option.some.injEq] at hhead
      have : needsQuote v = true := by
        unfold needsQuote
        rw [hd, List.any_cons, hhead]
        simp
      exact h this

/-- C5: the CSV escaping function wraps the value in quotes and doubles every
embedded quote exactly when the value contains a comma, a quote, or a newline,
and returns it unchanged otherwise; for every string containing a comma, a
quote and a newline, escaping followed by standard CSV unescaping yields the
original string. -/
theorem csv_escape_exact_and_roundtrip (v : String) :
    (needsQuote v = true ↔ (',' ∈ v.data ∨ '"' ∈ v.data ∨ '\n' ∈ v.data)) ∧
    (escapeCsv v = v ↔ needsQuote v = false) ∧
    (needsQuote v = true →
      (escapeCsv v).data = ('"' :: doubleQuotes v.data) ++ ['"']) ∧
    (',' ∈ v.data → '"' ∈ v.data → '\n' ∈ v.data →
      unescapeCsv (escapeCsv v) = v) := by
  refine ⟨?_, ⟨?_, ?_⟩, escapeCsv_data_of_needsQuote v,
    fun _ _ _ => unescape_escape v⟩
  · unfold needsQuote
    rw [List.any_eq_true]
    constructor
    · rintro ⟨c, hc, hor⟩
      simp only [Bool.or_eq_true, beq_iff_eq] at hor
      rcases hor with (rfl | rfl) | rfl
      · exact Or.inl hc
      · exact Or.inr (Or.inr hc)
      · exact Or.inr (Or.inl hc)
    · rintro (h | h | h)
      · exact ⟨',', h, by simp⟩
      · exact ⟨'"', h, by simp⟩
      · exact ⟨'\n', h, by simp⟩
  · intro heq
    by_contra hq
    rw [Bool.not_eq_false] at hq
    have hdata := escapeCsv_data_of_needsQuote v hq
    have hlen : (escapeCsv v).data.length = (doubleQuotes v.data).length + 2 := by
      rw [hdata]; simp
    have hle := length_le_doubleQuotes v.data
    rw [heq] at hlen
    omega
  · intro hq
    simp [escapeCsv, hq]

/-- C5 witness: a concrete string containing a comma, a quote and a newline
round-trips through escape/unescape. -/
theorem csv_escape_roundtrip_witness :
    unescapeCsv (escapeCsv "a,\"b\"\nc") = "a,\"b\"\nc" :=
  (csv_escape_exact_and_roundtrip "a,\"b\"\nc").2.2.2
    (by decide) (by decide) (by decide)

/-! ## Data model of a fetched task (RemoteIssue)

Fields of the BugHerd task objects consumed by the export route of
`src/server.js`, all optional (JSON objects are open-ended key/value
bags).  Fields of the object that the export route never reads
(e.g. screenshot fields, attachments) are omitted.  `URL`, `pageUrlKebab`
and `sitePageKebab` model the properties `task.URL`, `task['page-url']`
and `task['site-page']`. -/

structure TaskAttributes where
  url : Option String := none
  page_url : Option String := none
  site_url : Option String := none
  deriving DecidableEq, Repr

structure Task where
  id : Int := 0
  status : Option String := none
  status_id : Option Int := none
  priority_id : Option Int := none
  priority : Option String := none
  description : Option String := none
  url : Option String := none
  site_url : Option String := none
  site : Option String := none
  page_url : Option String := none
  page : Option String := none
  site_page : Option String := none
  URL : Option String := none
  pageUrlKebab : Option String := none
  sitePageKebab : Option String := none
  attributes : Option TaskAttributes := none
  deriving DecidableEq, Repr

/-! ## Export filter stage (`src/server.js` lines 559-605) -/

/-- Filter selection posted to `/api/export` (`req.body.filters`). -/
structure Filters where
  feedback : Bool := false
  taskBoard : Bool := false
  archive : Bool := false
  deriving DecidableEq, Repr

/-- `String(task.status || '')` as used by the feedback/archive filters. -/
def statusStr (t : Task) : String :=
  jsOr t.status ""

/-- Feedback bucket test: `String(task.status || '').toLowerCase() === 'feedback'`. -/
def isFeedbackTask (t : Task) : Bool :=
  lowerStr (statusStr t) == "feedback"

/-- The literal `taskBoardStatuses` array from the source (including its
duplicated capitalised entries). -/
def taskBoardStatusList : List String :=
  ["backlog", "qa team", "in progress", "done", "in-progress", "suggestion",
   "Backlog", "QA Team", "In Progress", "Done", "In-Progress", "Suggestion"]

/-- Task-board bucket test: `if (!task.status) return false;` then
`String(task.status).trim().toLowerCase()` compared against each entry's
lower-cased form. -/
def isTaskBoardTask (t : Task) : Bool :=
  match t.status with
  | none => false
  | some s =>
    if s = "" then false
    else
      taskBoardStatusList.any (fun x => lowerStr (jsTrim s) == lowerStr x)

/-- Archive bucket test: lower-cased status contains `'archive'` or
`'closed'`, or `parseInt(task.status_id || '0') === 5`. -/
def isArchiveTask (t : Task) : Bool :=
  let status := lowerStr (statusStr t)
  let statusId := t.status_id.getD 0
  containsSub "archive" status || containsSub "closed" status || statusId == 5

/-- The filter stage: for each enabled bucket the matching tasks are
appended to `filteredTasks`, in bucket order feedback, taskBoard, archive. -/
def filterTasks (fl : Filters) (tasks : List Task) : List Task :=
  (if fl.feedback then tasks.filter isFeedbackTask else [])
    ++ (if fl.taskBoard then tasks.filter isTaskBoardTask else [])
    ++ (if fl.archive then tasks.filter isArchiveTask else [])

/-- The filter criterion exactly as the claim words it ("matching is by
case-insensitive status comparison", with no trimming): kept for
comparison with the source's behaviour. -/
def claimedBucketMatch (fl : Filters) (t : Task) : Bool :=
  let status := lowerStr (t.status.getD "")
  (fl.feedback && status == "feedback")
    || (fl.taskBoard &&
        ["backlog", "qa team", "in progress", "done", "in-progress",
         "suggestion"].any (fun x => status == x))
    || (fl.archive &&
        (containsSub "archive" status || containsSub "closed" status ||
          t.status_id == some (5 : Int)))

/-- The claim's criterion amended minimally: the task-board bucket
compares the status after trimming surrounding whitespace (as the source
does); the other buckets are as the claim states them. -/
def claimedBucketMatchTrim (fl : Filters) (t : Task) : Bool :=
  let status := lowerStr (t.status.getD "")
  (fl.feedback && status == "feedback")
    || (fl.taskBoard &&
        ["backlog", "qa team", "in progress", "done", "in-progress",
         "suggestion"].any (fun x => lowerStr (jsTrim (t.status.getD "")) == x))
    || (fl.archive &&
        (containsSub "archive" status || containsSub "closed" status ||
          t.status_id == some (5 : Int)))

/-- C2 counterexample: a task whose status is `" Backlog "` (surrounding
whitespace) is retained by the source's taskBoard filter, but does not
match any enabled bucket under the claim's untrimmed case-insensitive
comparison, so the filter does not retain exactly the claimed set. -/
theorem filter_claim_counterexample :
    filterTasks { taskBoard := true } [{ id := 1, status := some " Backlog " }]
        = [{ id := 1, status := some " Backlog " }] ∧
    claimedBucketMatch { taskBoard := true }
        { id := 1, status := some " Backlog " } = false := by
  constructor
  · decide
  · decide

theorem jsOr_empty (o : Option String) : jsOr o "" = o.getD "" := by
  cases o with
  | none => rfl
  | some s =>
    by_cases h : s = "" <;> simp [jsOr, h]

theorem isFeedbackTask_eq (t : Task) :
    isFeedbackTask t = (lowerStr (t.status.getD "") == "feedback") := by
  simp [isFeedbackTask, statusStr, jsOr_empty]

theorem isArchiveTask_eq (t : Task) :
    isArchiveTask t =
      (containsSub "archive" (lowerStr (t.status.getD "")) ||
        containsSub "closed" (lowerStr (t.status.getD "")) ||
        t.status_id == some (5 : Int)) := by
  simp only [isArchiveTask, statusStr, jsOr_empty]
  cases t.status_id with
  | none => simp
  | some n => simp

theorem isTaskBoardTask_eq (t : Task) :
    isTaskBoardTask t =
      (["backlog", "qa team", "in progress", "done", "in-progress",
        "suggestion"].any
          (fun x => lowerStr (jsTrim (t.status.getD "")) == x)) := by
  cases hs : t.status with
  | none =>
    simp only [isTaskBoardTask, hs, Option.getD_none]
    decide
  | some s =>
    by_cases h : s = ""
    · subst h
      simp only [isTaskBoardTask, hs]
      decide
    · simp only [isTaskBoardTask, hs, if_neg h, Option.getD_some]
      have e1 : lowerStr "backlog" = "backlog" := by decide
      have e2 : lowerStr "qa team" = "qa team" := by decide
      have e3 : lowerStr "in progress" = "in progress" := by decide
      have e4 : lowerStr "done" = "done" := by decide
      have e5 : lowerStr "in-progress" = "in-progress" := by decide
      have e6 : lowerStr "suggestion" = "suggestion" := by decide
      have e7 : lowerStr "Backlog" = "backlog" := by decide
      have e8 : lowerStr "QA Team" = "qa team" := by decide
      have e9 : lowerStr "In Progress" = "in progress" := by decide
      have e10 : lowerStr "Done" = "done" := by decide
      have e11 : lowerStr "In-Progress" = "in-progress" := by decide
      have e12 : lowerStr "Suggestion" = "suggestion" := by decide
      simp only [taskBoardStatusList, List.any_cons, List.any_nil,
        e1, e2, e3, e4, e5, e6, e7, e8, e9, e10, e11, e12]
      simp only [Bool.or_false]
      generalize lowerStr (jsTrim s) = q
      cases hq1 : (q == "backlog") <;>
        cases hq2 : (q == "qa team") <;>
        cases hq3 : (q == "in progress") <;>
        cases hq4 : (q == "done") <;>
        cases hq5 : (q == "in-progress") <;>
        cases hq6 : (q == "suggestion") <;> simp

/-- C2 (amended): the export filter retains exactly the issues matching
some enabled bucket — with the task-board comparison performed on the
whitespace-trimmed status, as the source does. -/
theorem export_filter_retains (fl : Filters) (tasks : List Task) (t : Task) :
    t ∈ filterTasks fl tasks ↔
      t ∈ tasks ∧ claimedBucketMatchTrim fl t = true := by
  obtain ⟨f, tb, ar⟩ := fl
  unfold filterTasks claimedBucketMatchTrim
  cases f <;> cases tb <;> cases ar <;>
    simp [List.mem_append, List.mem_filter, isFeedbackTask_eq,
      isArchiveTask_eq, isTaskBoardTask_eq] <;> tauto

/-! ## Deduplication (`uniqueTasks`, `src/server.js` lines 610-617)

The source keeps `filteredTasks[index]` exactly when
`index === self.findIndex(t => t.id === task.id)`, i.e. when no earlier
element of the whole list has the same identifier.  `uniqueTasksAux`
carries the already-visited earlier elements. -/

def uniqueTasksAux : List Task → List Task → List Task
  | _, [] => []
  | earlier, t :: rest =>
    if earlier.any (fun u => u.id == t.id) then
      uniqueTasksAux (earlier ++ [t]) rest
    else
      t :: uniqueTasksAux (earlier ++ [t]) rest

/-- `uniqueTasks` from the export route of `src/server.js`. -/
def uniqueTasks (l : List Task) : List Task :=
  uniqueTasksAux [] l

theorem uniqueTasksAux_sublist (earlier l : List Task) :
    (uniqueTasksAux earlier l).Sublist l := by
  induction l generalizing earlier with
  | nil => simp [uniqueTasksAux]
  | cons t rest ih =>
    simp only [uniqueTasksAux]
    split
    · exact (ih (earlier ++ [t])).cons t
    · exact (ih (earlier ++ [t])).cons₂ t

theorem uniqueTasksAux_filter_of_seen (earlier l : List Task) (i : Int)
    (h : earlier.any (fun u => u.id == i) = true) :
    (uniqueTasksAux earlier l).filter (fun u => u.id == i) = [] := by
  induction l generalizing earlier with
  | nil => simp [uniqueTasksAux]
  | cons t rest ih =>
    have h' : (earlier ++ [t]).any (fun u => u.id == i) = true := by
      simp only [List.any_append, h, Bool.true_or]
    simp only [uniqueTasksAux]
    split
    · exact ih (earlier ++ [t]) h'
    · rename_i hseen
      have hti : (t.id == i) = false := by
        by_contra hcon
        rw [Bool.not_eq_false, beq_iff_eq] at hcon
        rw [List.any_eq_true] at h
        obtain ⟨u, hu, hui⟩ := h
        rw [beq_iff_eq] at hui
        have : earlier.any (fun u => u.id == t.id) = true := by
          rw [List.any_eq_true]
          exact ⟨u, hu, by rw [beq_iff_eq, hui, hcon]⟩
        simp [this] at hseen
      rw [List.filter_cons, hti]
      simp only [Bool.false_eq_true, if_neg, ite_false]
      exact ih (earlier ++ [t]) h'

theorem uniqueTasksAux_filter_of_unseen (earlier l : List Task) (i : Int)
    (h : earlier.any (fun u => u.id == i) = false) :
    (uniqueTasksAux earlier l).filter (fun u => u.id == i) =
      (l.filter (fun u => u.id == i)).take 1 := by
  induction l generalizing earlier with
  | nil => simp [uniqueTasksAux]
  | cons t rest ih =>
    simp only [uniqueTasksAux]
    split
    · rename_i hseen
      have hti : (t.id == i) = false := by
        by_contra hcon
        rw [Bool.not_eq_false, beq_iff_eq] at hcon
        rw [List.any_eq_true] at hseen
        obtain ⟨u, hu, hui⟩ := hseen
        rw [beq_iff_eq] at hui
        have : earlier.any (fun u => u.id == i) = true := by
          rw [List.any_eq_true]
          exact ⟨u, hu, by rw [beq_iff_eq, hui, hcon]⟩
        rw [this] at h
        exact Bool.true_eq_false.mp h
      have h' : (earlier ++ [t]).any (fun u => u.id == i) = false := by
        simp only [List.any_append, h, Bool.false_or, List.any_cons,
          List.any_nil, Bool.or_false, hti]
      rw [List.filter_cons, hti]
      simp only [Bool.false_eq_true, if_neg, ite_false]
      exact ih (earlier ++ [t]) h'
    · by_cases hti : (t.id == i) = true
      · have h' : (earlier ++ [t]).any (fun u => u.id == i) = true := by
          simp only [List.any_append, List.any_cons, List.any_nil, hti]
          simp
        rw [List.filter_cons, List.filter_cons, hti]
        simp only [if_pos]
        rw [uniqueTasksAux_filter_of_seen (earlier ++ [t]) rest i h']
        simp
      · rw [Bool.not_eq_true] at hti
        have h' : (earlier ++ [t]).any (fun u => u.id == i) = false := by
          simp only [List.any_append, h, Bool.false_or, List.any_cons,
            List.any_nil, Bool.or_false, hti]
        rw [List.filter_cons, List.filter_cons, hti]
        simp only [Bool.false_eq_true, if_neg, ite_false]
        exact ih (earlier ++ [t]) h'

/-- C3: deduplication keeps, for every identifier, exactly the first
occurrence among the elements carrying that identifier, and the output is
a sublist of the input (so the relative order of first occurrences is
preserved). -/
theorem uniqueTasks_first_occurrence (l : List Task) (i : Int) :
    (uniqueTasks l).Sublist l ∧
      (uniqueTasks l).filter (fun u => u.id == i) =
        (l.filter (fun u => u.id == i)).take 1 := by
  exact ⟨uniqueTasksAux_sublist [] l,
    uniqueTasksAux_filter_of_unseen [] l i (by simp)⟩

/-! ## Priority labels

`src/server.js` lines 709-722 (CSV export) and
`src/generator.js` lines 591-600 (HTML renderer). -/

/-- The CSV-export `priorityMap` object: identifier to lower-case label,
`undefined` outside 0-4. -/
def serverPriorityMap (pid : Int) : Option String :=
  if pid = 1 then some "critical"
  else if pid = 2 then some "important"
  else if pid = 3 then some "normal"
  else if pid = 4 then some "minor"
  else if pid = 0 then some "not set"
  else none

/-- The CSV-export priority cell:
`typeof task.priority_id !== 'undefined' ? priorityMap[task.priority_id] || getValue(task.priority) : getValue(task.priority)`
(`||` falls through on `undefined`; all map entries are non-empty). -/
def serverPriorityLabel (t : Task) : String :=
  match t.priority_id with
  | some pid => (serverPriorityMap pid).getD (getValue t.priority)
  | none => getValue t.priority

/-- The HTML renderer `priorityMap` object (`src/generator.js`):
capitalised labels. -/
def generatorPriorityMap (pid : Int) : Option String :=
  if pid = 1 then some "Critical"
  else if pid = 2 then some "Important"
  else if pid = 3 then some "Normal"
  else if pid = 4 then some "Minor"
  else if pid = 0 then some "Not Set"
  else none

/-- The HTML renderer priority value:
`task.priority_id !== undefined ? priorityMap[task.priority_id] || 'Normal' : 'Normal'`. -/
def generatorPriorityLabel (t : Task) : String :=
  match t.priority_id with
  | some pid => (generatorPriorityMap pid).getD "Normal"
  | none => "Normal"

/-- C4 counterexample: for the unknown identifier 7 the CSV export falls
back to the free-text priority and, when that is also absent, yields the
empty string — not "normal" as the claim states; and the HTML renderer
ignores the free-text priority entirely, yielding "Normal" instead of
the free-text value "urgent". -/
theorem priority_label_counterexample :
    serverPriorityLabel { priority_id := some 7 } = "" ∧
    "" ≠ "normal" ∧
    generatorPriorityLabel { priority_id := some 7, priority := some "urgent" }
        = "Normal" ∧
    "Normal" ≠ "urgent" := by
  refine ⟨by decide, by decide, by decide, by decide⟩

/-- C4 (amended): on identifiers 0-4 the label table is exactly
{0 ↦ "not set", 1 ↦ "critical", 2 ↦ "important", 3 ↦ "normal",
4 ↦ "minor"} and is injective there (a bijection onto the five labels);
for an identifier outside 0-4 the CSV export falls back to the trimmed
free-text priority field, defaulting to the empty string when that is
absent (and likewise when the identifier is missing); the HTML renderer
uses the capitalised table and maps unknown or missing identifiers to
"Normal" without consulting the free-text field. -/
theorem priority_label_amended (t : Task) (pid : Int) :
    (serverPriorityMap 0 = some "not set" ∧
     serverPriorityMap 1 = some "critical" ∧
     serverPriorityMap 2 = some "important" ∧
     serverPriorityMap 3 = some "normal" ∧
     serverPriorityMap 4 = some "minor") ∧
    (∀ i j : Int, 0 ≤ i → i ≤ 4 → 0 ≤ j → j ≤ 4 →
      serverPriorityMap i = serverPriorityMap j → i = j) ∧
    (t.priority_id = some pid → (pid < 0 ∨ 4 < pid) →
      serverPriorityLabel t = getValue t.priority) ∧
    (t.priority_id = none → serverPriorityLabel t = getValue t.priority) ∧
    (t.priority_id = some pid → (pid < 0 ∨ 4 < pid) →
      generatorPriorityLabel t = "Normal") ∧
    (t.priority_id = none → generatorPriorityLabel t = "Normal") := by
  have hmapnone : ∀ k : Int, k < 0 ∨ 4 < k → serverPriorityMap k = none := by
    intro k hk
    unfold serverPriorityMap
    have h1 : k ≠ 1 := by omega
    have h2 : k ≠ 2 := by omega
    have h3 : k ≠ 3 := by omega
    have h4 : k ≠ 4 := by omega
    have h0 : k ≠ 0 := by omega
    simp [h0, h1, h2, h3, h4]
  have hgmapnone : ∀ k : Int, k < 0 ∨ 4 < k → generatorPriorityMap k = none := by
    intro k hk
    unfold generatorPriorityMap
    have h1 : k ≠ 1 := by omega
    have h2 : k ≠ 2 := by omega
    have h3 : k ≠ 3 := by omega
    have h4 : k ≠ 4 := by omega
    have h0 : k ≠ 0 := by omega
    simp [h0, h1, h2, h3, h4]
  refine ⟨⟨by decide, by decide, by decide, by decide, by decide⟩, ?_, ?_, ?_, ?_, ?_⟩
  · intro i j hi0 hi4 hj0 hj4 hij
    interval_cases i <;> interval_cases j <;> simp_all [serverPriorityMap]
  · intro hp hout
    simp [serverPriorityLabel, hp, hmapnone pid hout]
  · intro hp
    simp [serverPriorityLabel, hp]
  · intro hp hout
    simp [generatorPriorityLabel, hp, hgmapnone pid hout]
  · intro hp
    simp [generatorPriorityLabel, hp]

/-- C4 witness: the amended fallback behaviour at the concrete unknown
identifier 9 with free-text priority "urgent". -/
theorem priority_label_amended_witness :
    serverPriorityLabel { priority_id := some 9, priority := some "urgent" }
      = getValue (some "urgent") :=
  (priority_label_amended
      { priority_id := some 9, priority := some "urgent" } 9).2.2.1
    rfl (Or.inr (by decide))

/-! ## Upload pipeline (`/api/upload`, `src/server.js` lines 206-349)

One imported spreadsheet row (`ImportedRow`): the columns the handler
reads, all optional strings. -/

structure Row where
  id : Option String := none
  description : Option String := none
  priority : Option String := none
  status : Option String := none
  tags : Option String := none
  os : Option String := none
  browser : Option String := none
  browser_version : Option String := none
  resolution : Option String := none
  browser_size : Option String := none
  site : Option String := none
  siteUrl : Option String := none
  url : Option String := none
  severity : Option String := none
  requester_email : Option String := none
  deriving DecidableEq, Repr

/-- A resolved BugHerd priority (`{ id, name }`). -/
structure BHPriority where
  id : Nat
  name : String
  deriving DecidableEq, Repr

/-- `getBugHerdPriority` from `src/server.js` lines 150-162: name-keyed
lookup with default `normal`. -/
def getBugHerdPriority (priorityName : String) : BHPriority :=
  let k := lowerStr priorityName
  if k = "critical" then ⟨1, "critical"⟩
  else if k = "important" then ⟨2, "important"⟩
  else if k = "normal" then ⟨3, "normal"⟩
  else if k = "minor" then ⟨4, "minor"⟩
  else if k = "not set" then ⟨0, "not set"⟩
  else ⟨3, "normal"⟩

/-- JS `s.split(',')` on a char list (keeps empty segments). -/
def splitComma : List Char → List (List Char)
  | [] => [[]]
  | a :: as =>
    match splitComma as with
    | [] => [[]]
    | seg :: rest => if a = ',' then [] :: seg :: rest else (a :: seg) :: rest

/-- The `task` payload posted to the create endpoint. -/
structure BugData where
  description : String
  priority : String
  priority_id : Nat
  status : String
  tag_names : List String
  requester_email : Option String
  requester_name : String
  browser : String
  browser_version : String
  os : String
  resolution : String
  site_page : String
  custom_fields : List (String × String)
  deriving DecidableEq, Repr

/-- The `details` lines appended below the description (`OS:`, `Browser:`,
`Resolution:`, `Browser Window:`, `URL:`), each gated on the row field
being truthy. -/
def rowDetails (bug : Row) : List String :=
  (if jsTruthy bug.os then ["OS: " ++ bug.os.getD ""] else [])
    ++ (if jsTruthy bug.browser then
          [jsTrim ("Browser: " ++ bug.browser.getD "" ++ " " ++
            jsOr bug.browser_version "")]
        else [])
    ++ (if jsTruthy bug.resolution then
          ["Resolution: " ++ bug.resolution.getD ""] else [])
    ++ (if jsTruthy bug.browser_size then
          ["Browser Window: " ++ bug.browser_size.getD ""] else [])
    ++ (if jsOr bug.site (jsOr bug.siteUrl (jsOr bug.url "")) ≠ "" then
          ["URL: " ++ jsOr bug.site (jsOr bug.siteUrl (jsOr bug.url ""))]
        else [])

/-- Description augmentation: original text, a blank-line separator, then
the detail lines joined by newlines (only when any detail is present). -/
def rowDescription (bug : Row) : String :=
  let d := jsOr bug.description ""
  let details := rowDetails bug
  if details.length > 0 then d ++ "\n\n" ++ String.intercalate "\n" details
  else d

/-- The full per-row payload mapping from the upload handler. -/
def buildBugData (bug : Row) : BugData :=
  let priority := getBugHerdPriority (jsOr bug.priority "not set")
  let baseTags :=
    if jsTruthy bug.tags then
      (splitComma (bug.tags.getD "").data).map (fun seg => jsTrim ⟨seg⟩)
    else []
  let sev :=
    if jsTruthy bug.severity then
      some (jsTrim (lowerStr (bug.severity.getD "")))
    else none
  { description := rowDescription bug
    priority := priority.name
    priority_id := priority.id
    status := jsOr bug.status "backlog"
    tag_names := baseTags ++
      (match sev with | some v => ["severity:" ++ v] | none => [])
    requester_email := bug.requester_email
    requester_name := "CSV Importer"
    browser := jsOr bug.browser ""
    browser_version := ""
    os := jsOr bug.os ""
    resolution := jsOr bug.resolution ""
    site_page := jsOr bug.site ""
    custom_fields :=
      match sev with | some v => [("severity", v)] | none => [] }

/-- The remote calls the upload handler can issue, in issue order. -/
inductive ApiCall where
  | createTask (projectId : String) (data : BugData)
  | updatePriority (projectId : String) (taskId : Nat) (priority : BHPriority)
  deriving DecidableEq, Repr

/-- A create response (`response.data`). -/
structure CreateResp where
  id : Nat
  url : String
  deriving DecidableEq, Repr

/-- One entry of the `results` array returned by `/api/upload`. -/
inductive RowResult where
  | success (id : Option String) (bugherdId : Nat) (url : String)
  | failure (id : Option String) (message : String)
  deriving DecidableEq, Repr

/-- One iteration of the per-row loop: build the payload, call create;
on success, issue the separate priority update when `priority.id !== 0`
(its outcome is swallowed by the inner `try/catch`); the per-row
`try/catch` turns a create failure into an error record. The second
component is the trace of remote calls issued. -/
def processRow (createFn : BugData → Except String CreateResp)
    (updateFn : Nat → BHPriority → Except String Unit)
    (projectId : String) (bug : Row) : RowResult × List ApiCall :=
  let priority := getBugHerdPriority (jsOr bug.priority "not set")
  let bugData := buildBugData bug
  match createFn bugData with
  | .error e => (.failure bug.id e, [.createTask projectId bugData])
  | .ok resp =>
    if priority.id ≠ 0 then
      match updateFn resp.id priority with
      | .ok _ =>
        (.success bug.id resp.id resp.url,
          [.createTask projectId bugData,
           .updatePriority projectId resp.id priority])
      | .error _ =>
        (.success bug.id resp.id resp.url,
          [.createTask projectId bugData,
           .updatePriority projectId resp.id priority])
    else
      (.success bug.id resp.id resp.url, [.createTask projectId bugData])

/-- The sequential per-row loop (`for (const bug of bugs)` pushing into
`results`), also accumulating the trace of issued calls. -/
def processBugs (createFn : BugData → Except String CreateResp)
    (updateFn : Nat → BHPriority → Except String Unit)
    (projectId : String) (bugs : List Row) :
    List RowResult × List ApiCall :=
  bugs.foldl
    (fun acc bug =>
      (acc.1 ++ [(processRow createFn updateFn projectId bug).1],
       acc.2 ++ (processRow createFn updateFn projectId bug).2))
    ([], [])

/-- A create oracle that always succeeds with task id 42. -/
def createOracleOk : BugData → Except String CreateResp :=
  fun _ => .ok ⟨42, "https://www.bugherd.com/tasks/42"⟩

/-- An update oracle that always fails (models a failing priority-update
call). -/
def updateOracleFail : Nat → BHPriority → Except String Unit :=
  fun _ _ => .error "update failed"

/-- C1 counterexample: for a row with priority "normal" the resolved
identifier is the default 3, yet the code issues the separate
priority-update call (its guard is `priority.id !== 0`, not `!== 3`), so
the update is not issued "exactly when the identifier is not 3". -/
theorem priority_update_counterexample :
    (getBugHerdPriority "normal").id = 3 ∧
    (processRow createOracleOk updateOracleFail "P1"
        { priority := some "normal" }).2 =
      [.createTask "P1" (buildBugData { priority := some "normal" }),
       .updatePriority "P1" 42 ⟨3, "normal"⟩] := by
  exact ⟨by decide, by decide⟩

/-- C1 (amended): after a successful create, the separate priority-update
call is issued exactly when the resolved priority identifier is not 0
("not set") — in particular it is issued for "critical" (id 1) and not
for "not set" (id 0) — and the row is reported a success whatever the
update call's outcome (a failure is only logged). -/
theorem priority_update_amended
    (createFn : BugData → Except String CreateResp)
    (updateFn : Nat → BHPriority → Except String Unit)
    (projectId : String) (bug : Row) (resp : CreateResp)
    (hc : createFn (buildBugData bug) = .ok resp) :
    (processRow createFn updateFn projectId bug).2 =
      .createTask projectId (buildBugData bug) ::
        (if (getBugHerdPriority (jsOr bug.priority "not set")).id ≠ 0 then
          [.updatePriority projectId resp.id
            (getBugHerdPriority (jsOr bug.priority "not set"))]
        else []) ∧
    (processRow createFn updateFn projectId bug).1 =
      .success bug.id resp.id resp.url ∧
    (getBugHerdPriority "critical").id = 1 ∧
    (getBugHerdPriority "not set").id = 0 := by
  refine ⟨?_, ?_, by decide, by decide⟩ <;>
    · simp only [processRow, hc]
      split
      · cases updateFn resp.id (getBugHerdPriority (jsOr bug.priority "not set")) <;>
          simp_all
      · simp_all

/-- C1 witness: a concrete "critical" row, a create oracle that succeeds
and an update oracle that fails: the update call is issued and the row is
still reported a success. -/
theorem priority_update_amended_witness :
    (processRow createOracleOk updateOracleFail "P1"
        { id := some "1", priority := some "critical" }).2 =
      .createTask "P1"
          (buildBugData { id := some "1", priority := some "critical" }) ::
        (if (getBugHerdPriority
              (jsOr (some "critical") "not set")).id ≠ 0 then
          [.updatePriority "P1" 42
            (getBugHerdPriority (jsOr (some "critical") "not set"))]
        else []) ∧
    (processRow createOracleOk updateOracleFail "P1"
        { id := some "1", priority := some "critical" }).1 =
      .success (some "1") 42 "https://www.bugherd.com/tasks/42" ∧
    (getBugHerdPriority "critical").id = 1 ∧
    (getBugHerdPriority "not set").id = 0 :=
  priority_update_amended createOracleOk updateOracleFail "P1"
    { id := some "1", priority := some "critical" }
    ⟨42, "https://www.bugherd.com/tasks/42"⟩ rfl

theorem processBugs_foldl (createFn : BugData → Except String CreateResp)
    (updateFn : Nat → BHPriority → Except String Unit)
    (projectId : String) (bugs : List Row)
    (acc1 : List RowResult) (acc2 : List ApiCall) :
    bugs.foldl
      (fun acc bug =>
        (acc.1 ++ [(processRow createFn updateFn projectId bug).1],
         acc.2 ++ (processRow createFn updateFn projectId bug).2))
      (acc1, acc2) =
      (acc1 ++ bugs.map (fun b => (processRow createFn updateFn projectId b).1),
       acc2 ++ (bugs.map
         (fun b => (processRow createFn updateFn projectId b).2)).flatten) := by
  induction bugs generalizing acc1 acc2 with
  | nil => simp
  | cons b rest ih =>
    simp only [List.foldl_cons, List.map_cons, List.flatten_cons]
    rw [ih]
    simp

/-- C7: the per-row loop produces exactly one result record per row, in
input order, and each record is a function of its own row alone (so a
failure in one row can neither remove an earlier record nor prevent a
later one); the issued remote calls are the per-row calls in row order. -/
theorem upload_results_per_row
    (createFn : BugData → Except String CreateResp)
    (updateFn : Nat → BHPriority → Except String Unit)
    (projectId : String) (bugs : List Row) :
    (processBugs createFn updateFn projectId bugs).1 =
      bugs.map (fun b => (processRow createFn updateFn projectId b).1) ∧
    (processBugs createFn updateFn projectId bugs).1.length = bugs.length ∧
    (processBugs createFn updateFn projectId bugs).2 =
      (bugs.map
        (fun b => (processRow createFn updateFn projectId b).2)).flatten := by
  have h := processBugs_foldl createFn updateFn projectId bugs [] []
  unfold processBugs
  rw [h]
  simp

/-! ## The upload handler (`/api/upload`) -/

/-- The responses the upload handler can produce. -/
inductive UploadResponse where
  | badRequest (error : String)
  | ok (total : Nat) (results : List RowResult)
  | apiError (message : String)
  deriving DecidableEq, Repr

/-- Handler outcome: the HTTP response together with whether the uploaded
temporary file was deleted. -/
structure UploadOutcome where
  response : UploadResponse
  fileDeleted : Bool
  deriving DecidableEq, Repr

/-- The `/api/upload` handler: missing file / missing project id are
client errors issued before any parsing; a parse failure deletes the file
and surfaces as an API error; otherwise the per-row loop runs, the file
is deleted and a success envelope with `total` and `results` is sent. -/
def uploadHandler (hasFile : Bool) (projectId : Option String)
    (parsed : Except String (List Row))
    (createFn : BugData → Except String CreateResp)
    (updateFn : Nat → BHPriority → Except String Unit) : UploadOutcome :=
  if ¬hasFile then ⟨.badRequest "No file uploaded", false⟩
  else if ¬jsTruthy projectId then ⟨.badRequest "Project ID is required", false⟩
  else
    match parsed with
    | .error e => ⟨.apiError e, true⟩
    | .ok bugs =>
      ⟨.ok bugs.length
        (processBugs createFn updateFn (projectId.getD "") bugs).1, true⟩

/-- C10: a file that parses to zero data rows yields a success response
with total 0 and an empty results list, and the temporary file is
deleted. -/
theorem upload_zero_rows (projectId : Option String)
    (createFn : BugData → Except String CreateResp)
    (updateFn : Nat → BHPriority → Except String Unit)
    (hpid : jsTruthy projectId = true) :
    uploadHandler true projectId (.ok []) createFn updateFn =
      ⟨.ok 0 [], true⟩ := by
  simp [uploadHandler, hpid, processBugs]

/-- C10 witness: the concrete zero-row upload for project "123". -/
theorem upload_zero_rows_witness :
    uploadHandler true (some "123") (.ok []) createOracleOk updateOracleFail =
      ⟨.ok 0 [], true⟩ :=
  upload_zero_rows (some "123") createOracleOk updateOracleFail (by decide)

/-! ## Export pipeline (`/api/export`, `src/server.js` lines 457-1046)

The stages after request validation: page-fetch (modelled as its
`Except` outcome), filter, dedup, per-task detail enrichment (the
shallow merge `{...task, ...detailedTask}` is folded into the oracle's
returned task; a failed detail fetch keeps the original task), the
empty check, and CSV assembly.  The per-task record mapping (environment
extraction, screenshot extraction, ...) is passed in as `rowCells`. -/

/-- The CSV header array from the export route. -/
def csvHeaders : List String :=
  ["BugID", "Bug Status", "Bug Type", "Severity", "Tags/Categories",
   "Description", "Site + URL", "OS", "Browser", "Browser Size",
   "Resolution", "Screenshot URL", "Reporter"]

/-- One CSV line: cells escaped with `escapeCsv` and joined by commas. -/
def csvLine (cells : List String) : String :=
  String.intercalate "," (cells.map escapeCsv)

/-- The responses `/api/export` can produce after validation. -/
inductive ExportResult where
  | validationError (error : String)
  | fetchError (error : String)
  | noTasksFound (message : String)
  | csv (lines : List String)
  deriving DecidableEq, Repr

/-- The export pipeline after the project-id check. -/
def exportPipeline (fl : Filters) (fetch : Except String (List Task))
    (detailFetch : Task → Option Task)
    (rowCells : Nat → Task → List String) : ExportResult :=
  if ¬(fl.feedback || fl.taskBoard || fl.archive) then
    .validationError "At least one filter must be enabled"
  else
    match fetch with
    | .error e => .fetchError e
    | .ok tasks =>
      if ((uniqueTasks (filterTasks fl tasks)).map
            (fun t => (detailFetch t).getD t)).length = 0 then
        .noTasksFound "No tasks match the selected filters"
      else
        .csv (csvLine csvHeaders ::
          ((uniqueTasks (filterTasks fl tasks)).map
            (fun t => (detailFetch t).getD t)).enum.map
              (fun p => csvLine (rowCells p.1 p.2)))

/-- C6: when zero issues remain after filtering, deduplication and
enrichment, the export returns the dedicated "no matching issues" result
(not a fetch or validation error), and no CSV the pipeline ever produces
consists of only the header row. -/
theorem export_empty_no_csv (fl : Filters) (tasks : List Task)
    (detailFetch : Task → Option Task)
    (rowCells : Nat → Task → List String)
    (hfl : (fl.feedback || fl.taskBoard || fl.archive) = true)
    (hempty : uniqueTasks (filterTasks fl tasks) = []) :
    exportPipeline fl (.ok tasks) detailFetch rowCells =
      .noTasksFound "No tasks match the selected filters" ∧
    ∀ (fl2 : Filters) (fetch2 : Except String (List Task))
      (df2 : Task → Option Task) (rc2 : Nat → Task → List String)
      (lines : List String),
      exportPipeline fl2 fetch2 df2 rc2 = .csv lines → 2 ≤ lines.length := by
  constructor
  · simp [exportPipeline, hfl, hempty]
  · intro fl2 fetch2 df2 rc2 lines h
    unfold exportPipeline at h
    split at h
    · exact absurd h (by simp)
    · split at h
      · exact absurd h (by simp)
      · rename_i tasks2
        split at h
        · exact absurd h (by simp)
        · rename_i hne
          simp only [ExportResult.csv.injEq] at h
          subst h
          simp only [List.length_map] at hne
          simp only [List.length_cons, List.length_map, List.enum_length]
          omega

/-- C6 witness: an archive-only export of a task list with no matching
task returns the "no matching issues" result. -/
theorem export_empty_no_csv_witness :
    exportPipeline { archive := true }
        (.ok [{ id := 1, status := some "backlog" }])
        (fun _ => none) (fun _ _ => []) =
      .noTasksFound "No tasks match the selected filters" :=
  (export_empty_no_csv { archive := true }
      [{ id := 1, status := some "backlog" }]
      (fun _ => none) (fun _ _ => []) (by decide) (by decide)).1

/-! ## Site-URL extraction (`src/server.js` lines 727-804)

The URL candidates are the direct fields in the source's fixed order
(including its duplicated entries), the `attributes` fields when present,
then every `https?://` / `www.` token found in the description by the
global regex scan.  Each candidate is trimmed, cleaned and validated by
`new URL(...)`; the WHATWG parser is modelled by the `parseOk`
parameter.  The first candidate that validates is accepted. -/

/-- A single or double quote (the class `['"]`). -/
def isQuoteChar (c : Char) : Bool :=
  c == '"' || c == Char.ofNat 39

/-- `replace(/^['"]+|['"]+$/g, '')`: strip runs of surrounding quotes. -/
def stripQuotes (s : String) : String :=
  ⟨((s.data.dropWhile isQuoteChar).reverse.dropWhile isQuoteChar).reverse⟩

/-- `replace(/\s+/g, '')` (which also subsumes `replace(/\n/g, '')`):
remove every whitespace character. -/
def removeWs (s : String) : String :=
  ⟨s.data.filter (fun c => !isJsWs c)⟩

/-- Remove one occurrence of `suffix` at the end of the string, if
present (`replace(/\.\.\.$/ , '')` and `replace(/,$/, '')`). -/
def stripSuffix1 (suffix : List Char) (s : String) : String :=
  if isPre suffix.reverse s.data.reverse then
    ⟨(s.data.reverse.drop suffix.length).reverse⟩
  else s

/-- The cleanup chain applied to a candidate after `trim()`: quotes,
whitespace, trailing ellipsis, trailing comma, in source order. -/
def cleanCandidate (s : String) : String :=
  stripSuffix1 ",".data (stripSuffix1 "...".data (removeWs (stripQuotes s)))

/-- `s.startsWith(pre)` / an anchored case-sensitive regex test. -/
def startsWithStr (pre s : String) : Bool :=
  isPre pre.data s.data

/-- Scheme synthesis: keep candidates already matching `^https?:\/\/`;
prepend `https:` to protocol-relative ones, `https://` to `www.` ones,
and `https://` (after dropping leading slashes) otherwise. -/
def ensureScheme (c : String) : String :=
  if startsWithStr "https://" c || startsWithStr "http://" c then c
  else if startsWithStr "//" c then "https:" ++ c
  else if startsWithStr "www." c then "https://" ++ c
  else "https://" ++ (⟨c.data.dropWhile (fun x => x == '/')⟩ : String)

/-- The candidate loop: skip falsy/`'null'`/`'undefined'` entries, clean,
skip too-short ones, synthesize a scheme, accept the first candidate the
URL parser validates; yield `''` when none validates. -/
def findSiteUrl (parseOk : String → Bool) : List (Option String) → String
  | [] => ""
  | none :: rest => findSiteUrl parseOk rest
  | some u :: rest =>
    if jsTrim u = "" ∨ jsTrim u = "null" ∨ jsTrim u = "undefined" then
      findSiteUrl parseOk rest
    else if (cleanCandidate (jsTrim u)).length < 5 then
      findSiteUrl parseOk rest
    else if parseOk (ensureScheme (cleanCandidate (jsTrim u))) then
      ensureScheme (cleanCandidate (jsTrim u))
    else findSiteUrl parseOk rest

/-- Does the (case-insensitive) URL starter `https://`, `http://` or
`www.` begin here?  Returns the matched length. -/
def urlStarterLen (l : List Char) : Option Nat :=
  if isPre "https://".data (l.map Char.toLower) then some 8
  else if isPre "http://".data (l.map Char.toLower) then some 7
  else if isPre "www.".data (l.map Char.toLower) then some 4
  else none

/-- A character the token class `[^\s\n\)\]\}'">]` accepts. -/
def isUrlTokChar (c : Char) : Bool :=
  !(isJsWs c || c == ')' || c == ']' || c == Char.ofNat 125 ||
    c == Char.ofNat 39 || c == '"' || c == '>')

/-- Fueled scanner for the global regex
`/(?:https?:\/\/|www\.)[^\s\n\)\]\}'">]+/gi`: at each position try the
starter; a starter followed by at least one token character yields a
maximal match and the scan resumes after it, otherwise the scan advances
one character. -/
def urlScanGo : Nat → List Char → List String
  | 0, _ => []
  | _ + 1, [] => []
  | n + 1, c :: rest =>
    match urlStarterLen (c :: rest) with
    | some k =>
      if ((c :: rest).drop k).takeWhile isUrlTokChar = [] then
        urlScanGo n rest
      else
        ⟨(c :: rest).take k ++ ((c :: rest).drop k).takeWhile isUrlTokChar⟩ ::
          urlScanGo n
            (((c :: rest).drop k).drop
              (((c :: rest).drop k).takeWhile isUrlTokChar).length)
    | none => urlScanGo n rest

/-- `description.match(urlRegex) || []` over the whole description. -/
def urlScan (s : String) : List String :=
  urlScanGo (s.data.length + 1) s.data

/-- The direct-field candidate list in source order (with the source's
duplicate entries), followed by the `attributes` fields when present. -/
def urlFieldCandidates (t : Task) : List (Option String) :=
  [t.url, t.site_url, t.site, t.page_url, t.page, t.site_page, t.URL,
   t.page_url, t.pageUrlKebab, t.sitePageKebab, t.site_page]
    ++ (match t.attributes with
        | some a => [a.url, a.page_url, a.site_url]
        | none => [])

/-- The whole site-URL extraction for one task. -/
def extractSiteUrl (parseOk : String → Bool) (t : Task) : String :=
  findSiteUrl parseOk
    (urlFieldCandidates t ++ (urlScan (getValue t.description)).map some)

/-- C8: when every direct URL field is absent and the description scan
finds exactly one `https://` token, the extractor returns that exact
token with its trailing punctuation (ellipsis, comma) stripped — and, in
general, the first candidate that survives cleaning and parses
successfully is accepted, ending the iteration regardless of the
remaining candidates. -/
theorem siteUrl_from_description (parseOk : String → Bool) (t : Task)
    (tok : String)
    (hurl : t.url = none) (hsu : t.site_url = none) (hsite : t.site = none)
    (hpu : t.page_url = none) (hpage : t.page = none)
    (hsp : t.site_page = none) (hU : t.URL = none)
    (hpk : t.pageUrlKebab = none) (hsk : t.sitePageKebab = none)
    (hattr : t.attributes = none)
    (hscan : urlScan (getValue t.description) = [tok])
    (htrim : jsTrim tok = tok)
    (hne : tok ≠ "") (hnull : tok ≠ "null") (hundef : tok ≠ "undefined")
    (hq : stripQuotes tok = tok) (hws : removeWs tok = tok)
    (hlen : ¬ (stripSuffix1 ",".data (stripSuffix1 "...".data tok)).length < 5)
    (hscheme : startsWithStr "https://"
        (stripSuffix1 ",".data (stripSuffix1 "...".data tok)) = true)
    (hvalid : parseOk
        (stripSuffix1 ",".data (stripSuffix1 "...".data tok)) = true) :
    extractSiteUrl parseOk t =
      stripSuffix1 ",".data (stripSuffix1 "...".data tok) ∧
    ∀ (u : String) (rest : List (Option String)),
      jsTrim u = u → u ≠ "" → u ≠ "null" → u ≠ "undefined" →
      ¬ (cleanCandidate u).length < 5 →
      parseOk (ensureScheme (cleanCandidate u)) = true →
      findSiteUrl parseOk (some u :: rest) =
        ensureScheme (cleanCandidate u) := by
  constructor
  · have hclean : cleanCandidate tok =
        stripSuffix1 ",".data (stripSuffix1 "...".data tok) := by
      rw [cleanCandidate, hq, hws]
    have hens : ensureScheme (stripSuffix1 ",".data
        (stripSuffix1 "...".data tok)) =
        stripSuffix1 ",".data (stripSuffix1 "...".data tok) := by
      rw [ensureScheme, if_pos]
      rw [hscheme]
      simp
    unfold extractSiteUrl urlFieldCandidates
    rw [hurl, hsu, hsite, hpu, hpage, hsp, hU, hpk, hsk, hattr, hscan]
    simp only [List.map_cons, List.map_nil, List.cons_append,
      List.nil_append, List.append_nil]
    simp only [findSiteUrl]
    rw [htrim]
    rw [if_neg (by simp [hne, hnull, hundef])]
    rw [hclean]
    rw [if_neg hlen, hens, if_pos hvalid]
  · intro u rest hu hne2 hnull2 hundef2 hlen2 hvalid2
    simp only [findSiteUrl]
    rw [hu]
    rw [if_neg (by simp [hne2, hnull2, hundef2])]
    rw [if_neg hlen2, if_pos hvalid2]

/-- A simple concrete stand-in for the WHATWG URL parser used by the C8
witness: accept strings with an `http(s)` scheme and a nonempty
remainder. -/
def simpleParseOk (s : String) : Bool :=
  (startsWithStr "https://" s && decide (8 < s.length)) ||
    (startsWithStr "http://" s && decide (7 < s.length))

/-- C8 witness: a task with no direct URL fields whose description embeds
`https://example.com/page,` — the extractor recovers the token with the
trailing comma stripped. -/
theorem siteUrl_from_description_witness :
    extractSiteUrl simpleParseOk
        { description := some
            "Broken layout at https://example.com/page, see details" } =
      stripSuffix1 ",".data
        (stripSuffix1 "...".data "https://example.com/page,") :=
  (siteUrl_from_description simpleParseOk
      { description := some
          "Broken layout at https://example.com/page, see details" }
      "https://example.com/page,"
      rfl rfl rfl rfl rfl rfl rfl rfl rfl rfl
      (by decide) (by decide) (by decide) (by decide) (by decide)
      (by decide) (by decide) (by decide) (by decide) (by decide)).1

/-! ## Pagination loops

Three variants: the CSV export loop in `src/server.js` (page size 100,
stop on a short page, transport error terminal), `ReportGenerator.fetchTasks`
in `src/generator.js` (page size 50, per-page detail enrichment, stop on
a short page, the surrounding `catch` returns an empty list), and
`BrandReportGenerator.fetchTasks` in `src/brand-generator.js` (page size
50, stop only on an empty page, transport error rethrown).  `getPage`
is the page oracle (1-based); the loops are fueled, with every theorem
hypothesis keeping evaluation inside the fuel. -/

/-- Outcome of fetching one page. -/
inductive PageResult where
  | page (tasks : List Task)
  | malformed
  | err (message : String)
  deriving DecidableEq, Repr

/-- The export-route loop: `per_page = 100`; a response without a tasks
array breaks out of the loop; a page shorter than 100 ends it; pages are
concatenated; an exception propagates (terminal 500). -/
def fetchPagesServer (getPage : Nat → PageResult) :
    Nat → Nat → List Task → Except String (List Task)
  | 0, _, acc => .ok acc
  | fuel + 1, p, acc =>
    match getPage p with
    | .err e => .error e
    | .malformed => .ok acc
    | .page ts =>
      if ts.length < 100 then .ok (acc ++ ts)
      else fetchPagesServer getPage fuel (p + 1) (acc ++ ts)

/-- The export-route pagination starting from page 1. -/
def fetchAllTasksServer (getPage : Nat → PageResult) (fuel : Nat) :
    Except String (List Task) :=
  fetchPagesServer getPage fuel 1 []

/-- `ReportGenerator.fetchTasks` inner loop: `per_page = 50`, each page's
tasks are detail-enriched before accumulation, a page shorter than 50
ends the loop, an exception propagates to the surrounding `catch`. -/
def fetchPagesGen (getPage : Nat → PageResult) (detail : Task → Task) :
    Nat → Nat → List Task → Except String (List Task)
  | 0, _, acc => .ok acc
  | fuel + 1, p, acc =>
    match getPage p with
    | .err e => .error e
    | .malformed => .ok acc
    | .page ts =>
      if ts.length < 50 then .ok (acc ++ ts.map detail)
      else fetchPagesGen getPage detail fuel (p + 1) (acc ++ ts.map detail)

/-- `ReportGenerator.fetchTasks`: the surrounding `catch` swallows any
error and returns an empty array "to allow the report to be generated". -/
def fetchTasksGen (getPage : Nat → PageResult) (detail : Task → Task)
    (fuel : Nat) : List Task :=
  match fetchPagesGen getPage detail fuel 1 [] with
  | .ok l => l
  | .error _ => []

/-- `BrandReportGenerator.fetchTasks` loop: `per_page = 50`, but the loop
ends only when a page comes back empty; an exception is rethrown. -/
def fetchPagesBrand (getPage : Nat → PageResult) :
    Nat → Nat → List Task → Except String (List Task)
  | 0, _, acc => .ok acc
  | fuel + 1, p, acc =>
    match getPage p with
    | .err e => .error e
    | .malformed => .ok acc
    | .page ts =>
      if ts.length = 0 then .ok acc
      else fetchPagesBrand getPage fuel (p + 1) (acc ++ ts)

/-- A page oracle whose every fetch fails with a transport error. -/
def pageOracleErr : Nat → PageResult :=
  fun _ => .err "network error"

/-- A page oracle serving a 30-task page, then a 1-task page, then an
empty page. -/
def pageOracleShort : Nat → PageResult :=
  fun p =>
    if p = 1 then .page (List.replicate 30 { id := 1 })
    else if p = 2 then .page [{ id := 2 }]
    else .page []

/-- C9 counterexample: (a) in the detail-enriching variant a transport
error on the first page is not terminal — the catch returns an empty
task list and report generation proceeds; (b) the brand variant does not
stop after the first page that returns fewer items than the page size:
served a 30-task first page (30 < 50) it still fetches page 2 and
accumulates its task. -/
theorem pagination_counterexample :
    fetchTasksGen pageOracleErr (fun t => t) 5 = [] ∧
    fetchPagesBrand pageOracleShort 5 1 [] =
      .ok (List.replicate 30 { id := 1 } ++ [{ id := 2 }]) ∧
    (List.replicate 30 ({ id := 1 } : Task)).length < 50 := by
  refine ⟨by decide, by rfl, by decide⟩

theorem fetchPagesServer_concat (getPage : Nat → PageResult) :
    ∀ (k : Nat) (pagesF : Nat → List Task) (fuel start : Nat)
      (acc short : List Task),
      (∀ i, i < k → getPage (start + i) = .page (pagesF i) ∧
        100 ≤ (pagesF i).length) →
      getPage (start + k) = .page short → short.length < 100 → k < fuel →
      fetchPagesServer getPage fuel start acc =
        .ok (acc ++ ((List.range k).map pagesF).flatten ++ short) := by
  intro k
  induction k with
  | zero =>
    intro pagesF fuel start acc short hfull hshort hlt hfuel
    cases fuel with
    | zero => omega
    | succ f =>
      rw [Nat.add_zero] at hshort
      simp [fetchPagesServer, hshort, hlt]
  | succ k ih =>
    intro pagesF fuel start acc short hfull hshort hlt hfuel
    cases fuel with
    | zero => omega
    | succ f =>
      obtain ⟨h0, h0len⟩ := hfull 0 (Nat.succ_pos k)
      rw [Nat.add_zero] at h0
      have hrec := ih (fun i => pagesF (i + 1)) f (start + 1)
        (acc ++ pagesF 0) short
        (fun i hi => by
          have := hfull (i + 1) (by omega)
          constructor
          · have harg : start + 1 + i = start + (i + 1) := by omega
            rw [harg]
            exact this.1
          · exact this.2)
        (by
          have harg : start + 1 + k = start + (k + 1) := by omega
          rw [harg]
          exact hshort)
        hlt (by omega)
      simp only [fetchPagesServer, h0]
      rw [if_neg (by omega)]
      rw [hrec]
      simp [List.range_succ_eq_map, List.map_map, Function.comp_def,
        List.append_assoc]

/-- C9 (amended): the CSV export loop requests pages of size 100, stops
exactly after the first page shorter than 100, accumulates the
concatenation of all fetched pages, and a transport error on any page is
terminal for it; the detail-enriching HTML variant uses page size 50 and
the same short-page stop (on per-page-enriched tasks), but a transport
error is caught and an empty list is returned, so a report is still
generated; the brand variant uses page size 50 but stops only after the
first empty page — a page shorter than 50 yet nonempty does not end its
loop — and its transport errors are terminal. -/
theorem pagination_amended :
    (∀ (g : Nat → PageResult) (k : Nat) (pagesF : Nat → List Task)
      (fuel : Nat) (short : List Task),
      (∀ i, i < k → g (1 + i) = .page (pagesF i) ∧ 100 ≤ (pagesF i).length) →
      g (1 + k) = .page short → short.length < 100 → k < fuel →
      fetchAllTasksServer g fuel =
        .ok (((List.range k).map pagesF).flatten ++ short)) ∧
    (∀ (g : Nat → PageResult) (fuel p : Nat) (acc : List Task) (e : String),
      g p = .err e → fetchPagesServer g (fuel + 1) p acc = .error e) ∧
    (∀ (g : Nat → PageResult) (detail : Task → Task) (fuel p : Nat)
      (acc : List Task) (e : String),
      g p = .err e → fetchPagesGen g detail (fuel + 1) p acc = .error e) ∧
    (∀ (g : Nat → PageResult) (detail : Task → Task) (fuel : Nat)
      (e : String),
      fetchPagesGen g detail fuel 1 [] = .error e →
      fetchTasksGen g detail fuel = []) ∧
    (∀ (g : Nat → PageResult) (detail : Task → Task) (fuel p : Nat)
      (acc ts : List Task),
      g p = .page ts → ts.length < 50 →
      fetchPagesGen g detail (fuel + 1) p acc = .ok (acc ++ ts.map detail)) ∧
    (∀ (g : Nat → PageResult) (fuel p : Nat) (acc ts : List Task),
      g p = .page ts → ts ≠ [] →
      fetchPagesBrand g (fuel + 1) p acc =
        fetchPagesBrand g fuel (p + 1) (acc ++ ts)) ∧
    (∀ (g : Nat → PageResult) (fuel p : Nat) (acc : List Task),
      g p = .page [] → fetchPagesBrand g (fuel + 1) p acc = .ok acc) ∧
    (∀ (g : Nat → PageResult) (fuel p : Nat) (acc : List Task) (e : String),
      g p = .err e → fetchPagesBrand g (fuel + 1) p acc = .error e) := by
  refine ⟨?_, ?_, ?_, ?_, ?_, ?_, ?_, ?_⟩
  · intro g k pagesF fuel short hfull hshort hlt hfuel
    exact fetchPagesServer_concat g k pagesF fuel 1 [] short hfull hshort
      hlt hfuel
  · intro g fuel p acc e h
    simp [fetchPagesServer, h]
  · intro g detail fuel p acc e h
    simp [fetchPagesGen, h]
  · intro g detail fuel e h
    simp [fetchTasksGen, h]
  · intro g detail fuel p acc ts h hlen
    simp [fetchPagesGen, h, hlen]
  · intro g fuel p acc ts h hne
    simp [fetchPagesBrand, h, hne]
  · intro g fuel p acc h
    simp [fetchPagesBrand, h]
  · intro g fuel p acc e h
    simp [fetchPagesBrand, h]

/-- C9 witness: the export loop on a single 1-task page (1 < 100)
returns exactly that page's task. -/
theorem pagination_amended_witness :
    fetchAllTasksServer
        (fun p => if p = 1 then .page [{ id := 7 }] else .page []) 1 =
      .ok (((List.range 0).map (fun _ => ([] : List Task))).flatten ++
        [{ id := 7 }]) :=
  pagination_amended.1
    (fun p => if p = 1 then .page [{ id := 7 }] else .page [])
    0 (fun _ => []) 1 [{ id := 7 }]
    (fun i hi => absurd hi (by omega))
    (by decide) (by decide) (by decide)

end BugHerd
